import Mathlib

/-!
Shallow embedding of the verification-code / action-token / session / OAuth-state
lifecycle core of the `go-api-simple-starter` user-account backend
(package `internal/modules/user` and the `session` package).

Modelling conventions:
* time instants are `Int` (Unix seconds); Go's `time.Now().After(t)` becomes
  `now > t` and `now.Sub(x) < d` becomes `now - x < d` with durations in seconds;
* every call to a randomness source (`crypto/rand`, `uuid.NewV7`,
  `generateNumericCode`, `oauth2.GenerateVerifier`) is threaded in as an explicit
  argument, since the surrounding logic treats the produced value as opaque;
* the database is a list of rows per table; SQL `UPDATE ... WHERE` becomes a
  `List.map` guarded by the `WHERE` predicate and `RowsAffected() == 0` becomes
  emptiness of the rows matching that predicate; `ORDER BY created_at DESC
  LIMIT 1` becomes a maximum-by-`createdAt` selection;
* SHA-256 (`hashToken`) and bcrypt (`hashPassword`) are abstracted as injective
  deterministic stand-ins: the verified control flow depends only on equality
  and inequality of digests, never on their bit-level contents.
-/

/-- The sentinel errors of the `user` package (`errors.go`) and the `session`
package, collapsed into one enumeration.  `ErrInternal.WithCause e` is
modelled as the bare `internal` variant. -/
inductive UserErr where
  | notFound
  | internal
  | emailExists
  | invalidCredentials
  | emailNotVerified
  | invalidOTP
  | tooManyAttempts
  | resendTooSoon
  | invalidResetToken
  | oauthStateInvalid
  | oauthStateExpired
  | oauthExchangeFailed
  | oauthEmailMissing
  | unsupportedOAuthProvider
  | expired
deriving DecidableEq, Repr

/-- `hashToken` (service_helpers.go): SHA-256 of the input, base64url-encoded.
Abstracted as an injective deterministic stand-in; the services only compare
digests for equality (`subtle.ConstantTimeCompare`). -/
def hashToken (token : String) : String := "sha256$" ++ token

/-- `hashPassword` (service_helpers.go): bcrypt.  Abstracted as a deterministic
stand-in (the salt is irrelevant to the verified control flow). -/
def hashPassword (password : String) : String := "bcrypt$" ++ password

/-- `checkPasswordHash` (service_helpers.go): bcrypt comparison of a plaintext
password against a stored hash. -/
def checkPasswordHash (password hash : String) : Bool :=
  hash == hashPassword password

theorem hashToken_injective {a b : String} (h : hashToken a = hashToken b) :
    a = b := by
  have hd : ("sha256$".data ++ a.data) = ("sha256$".data ++ b.data) := by
    have := congrArg String.data h
    simpa [hashToken, String.append] using this
  have hab : a.data = b.data := List.append_cancel_left hd
  cases a; cases b; simp only at hab; rw [hab]

/-! ### Base64url encoders (`encoding/base64`)

`generateSecureToken` (service_helpers.go) uses Go's `base64.URLEncoding`
(padded with `'='`), while `randomOpaque` (session/postgres.go) uses
`base64.RawURLEncoding` (unpadded).  Bytes are `Nat`s (only the low 8 bits of
each are meaningful to the encoder). -/

/-- The base64url alphabet shared by `URLEncoding` and `RawURLEncoding`. -/
def b64urlAlphabet : List Char :=
  "ABCDEFGHIJKLMNOPQRSTUVWXYZabcdefghijklmnopqrstuvwxyz0123456789-_".data

/-- The alphabet character for a 6-bit group. -/
def b64Char (n : Nat) : Char := b64urlAlphabet.getD n 'A'

/-- Encode full and partial 3-byte groups into alphabet characters, without
padding (the common core of `URLEncoding` and `RawURLEncoding`). -/
def b64Groups : List Nat → List Char
  | b0 :: b1 :: b2 :: rest =>
      b64Char (b0 % 256 / 4) ::
      b64Char (b0 % 4 * 16 + b1 % 256 / 16) ::
      b64Char (b1 % 16 * 4 + b2 % 256 / 64) ::
      b64Char (b2 % 64) ::
      b64Groups rest
  | [b0, b1] =>
      [b64Char (b0 % 256 / 4), b64Char (b0 % 4 * 16 + b1 % 256 / 16),
       b64Char (b1 % 16 * 4)]
  | [b0] => [b64Char (b0 % 256 / 4), b64Char (b0 % 4 * 16)]
  | [] => []

/-- The `'='` padding emitted by Go's padded encodings for a trailing partial
group. -/
def b64Padding (len : Nat) : List Char :=
  match len % 3 with
  | 1 => ['=', '=']
  | 2 => ['=']
  | _ => []

/-- Go `base64.URLEncoding.EncodeToString`: base64url **with** padding. -/
def base64URLEncode (bytes : List Nat) : String :=
  ⟨b64Groups bytes ++ b64Padding bytes.length⟩

/-- Go `base64.RawURLEncoding.EncodeToString`: base64url **without** padding. -/
def base64RawURLEncode (bytes : List Nat) : String :=
  ⟨b64Groups bytes⟩

/-- `generateSecureToken` (service_helpers.go): random bytes encoded with the
padded `base64.URLEncoding`.  The random bytes are the argument. -/
def generateSecureToken (randomBytes : List Nat) : String :=
  base64URLEncode randomBytes

/-- `randomOpaque` (session/postgres.go): random bytes encoded with the
unpadded `base64.RawURLEncoding`.  The random bytes are the argument. -/
def randomOpaque (randomBytes : List Nat) : String :=
  base64RawURLEncode randomBytes

/-- Go's `strings.TrimSpace(s) == ""` test (the only use the services make of
`TrimSpace`): true exactly when every character of `s` is whitespace. -/
def isBlank (s : String) : Bool := s.data.all Char.isWhitespace

theorem b64Char_ne_eq_sign (n : Nat) : b64Char n ≠ '=' := by
  unfold b64Char
  by_cases h : n < b64urlAlphabet.length
  · have hmem : b64urlAlphabet.getD n 'A' ∈ b64urlAlphabet := by
      rw [List.getD_eq_getElem _ _ h]
      exact List.getElem_mem h
    intro heq
    rw [heq] at hmem
    revert hmem
    decide
  · rw [List.getD_eq_default _ _ (Nat.le_of_not_lt h)]
    decide

theorem b64Groups_no_eq_sign (bytes : List Nat) : '=' ∉ b64Groups bytes := by
  induction bytes using b64Groups.induct with
  | case1 b0 b1 b2 rest ih =>
      simp only [b64Groups, List.mem_cons]
      rintro (h | h | h | h | h)
      · exact b64Char_ne_eq_sign _ h.symm
      · exact b64Char_ne_eq_sign _ h.symm
      · exact b64Char_ne_eq_sign _ h.symm
      · exact b64Char_ne_eq_sign _ h.symm
      · exact ih h
  | case2 b0 b1 =>
      simp only [b64Groups, List.mem_cons, List.not_mem_nil]
      rintro (h | h | h | h) <;>
        first
          | exact b64Char_ne_eq_sign _ h.symm
          | exact h.elim
  | case3 b0 =>
      simp only [b64Groups, List.mem_cons, List.not_mem_nil]
      rintro (h | h | h) <;>
        first
          | exact b64Char_ne_eq_sign _ h.symm
          | exact h.elim
  | case4 =>
      simp [b64Groups]

/-! ### Data model (`user.go`) -/

/-- `VerificationPurpose` (user.go). -/
inductive VerificationPurpose where
  | emailVerify
  | passwordReset
deriving DecidableEq, Repr

/-- `VerificationChannel` (user.go); only `email` is defined in the source. -/
inductive VerificationChannel where
  | email
deriving DecidableEq, Repr

/-- `User` (user.go).  The `created_at`/`updated_at` bookkeeping timestamps are
omitted: no verified property mentions them. -/
structure User where
  id : String
  firstName : String
  lastName : String
  email : String
  passwordHash : String
  emailVerified : Bool
  passwordResetToken : Option String
  passwordResetTokenExpiry : Option Int
deriving DecidableEq, Repr

/-- `VerificationCode` (user.go). -/
structure VerificationCode where
  id : String
  userId : Option String
  contact : String
  purpose : VerificationPurpose
  channel : VerificationChannel
  codeHash : String
  attempts : Int
  maxAttempts : Int
  lastSentAt : Int
  expiresAt : Int
  consumedAt : Option Int
  createdAt : Int
deriving DecidableEq, Repr

/-- `ActionToken` (user.go). -/
structure ActionToken where
  id : String
  userId : String
  purpose : String
  tokenHash : String
  expiresAt : Int
  consumedAt : Option Int
  createdAt : Int
deriving DecidableEq, Repr

/-- `UserActiveSession` (user.go / the `user_active_sessions` table). -/
structure UserActiveSession where
  id : String
  userId : String
  sessionToken : String
  userAgent : Option String
  ipAddress : Option String
  lastActiveAt : Int
  createdAt : Int
deriving DecidableEq, Repr

/-- `OAuthState` (user.go). -/
structure OAuthState where
  state : String
  provider : String
  userId : Option String
  verifier : String
  expiresAt : Int
  createdAt : Int
  updatedAt : Int
deriving DecidableEq, Repr

/-! ### User repository (`repository_user.go`) -/

/-- `FindByEmail`: `SELECT ... WHERE email = $1` (first matching row, or
`ErrNotFound`). -/
def findByEmail (users : List User) (email : String) : Option User :=
  users.find? (fun u => u.email == email)

/-- `Update` (repository_user.go): writes `firstName`, `lastName`, `email`,
`password_hash`, `email_verified` of every row `WHERE id = user.id`; the
password-reset columns are not in its `SET` list and keep their stored values.
`RowsAffected() == 0` surfaces as `ErrNotFound`. -/
def updateUser (users : List User) (u : User) :
    Except UserErr (List User) :=
  if (users.filter (fun x => x.id == u.id)).isEmpty then
    .error .notFound
  else
    .ok (users.map (fun x =>
      if x.id == u.id then
        { u with
          passwordResetToken := x.passwordResetToken
          passwordResetTokenExpiry := x.passwordResetTokenExpiry }
      else x))

/-- `UpdatePassword` (repository_user.go): sets the password hash and clears
the password-reset columns `WHERE id = userID`. -/
def updatePassword (users : List User) (userID newPasswordHash : String) :
    Except UserErr (List User) :=
  if (users.filter (fun x => x.id == userID)).isEmpty then
    .error .notFound
  else
    .ok (users.map (fun x =>
      if x.id == userID then
        { x with
          passwordHash := newPasswordHash
          passwordResetToken := none
          passwordResetTokenExpiry := none }
      else x))

/-! ### Verification-code repository (unnamed/part_012) -/

/-- The row filter of `GetActiveVerificationCodeByContact`:
`contact/purpose/channel` match and `consumed_at IS NULL`. -/
def activeByContactP (contact : String) (purpose : VerificationPurpose)
    (channel : VerificationChannel) (vc : VerificationCode) : Prop :=
  vc.contact = contact ∧ vc.purpose = purpose ∧ vc.channel = channel ∧
    vc.consumedAt = none

instance (c : String) (p : VerificationPurpose) (ch : VerificationChannel) :
    DecidablePred (activeByContactP c p ch) := fun vc => by
  unfold activeByContactP; infer_instance

/-- The row filter of `GetActiveVerificationCodeByUser`:
`user_id/purpose/channel` match and `consumed_at IS NULL`. -/
def activeByUserP (userID : String) (purpose : VerificationPurpose)
    (channel : VerificationChannel) (vc : VerificationCode) : Prop :=
  vc.userId = some userID ∧ vc.purpose = purpose ∧ vc.channel = channel ∧
    vc.consumedAt = none

instance (uid : String) (p : VerificationPurpose) (ch : VerificationChannel) :
    DecidablePred (activeByUserP uid p ch) := fun vc => by
  unfold activeByUserP; infer_instance

/-- `ORDER BY created_at DESC LIMIT 1` over an unordered row list: the row with
the greatest `createdAt` (earlier row wins a tie, mirroring an arbitrary but
fixed database order). -/
def latestByCreatedAt : List VerificationCode → Option VerificationCode
  | [] => none
  | vc :: rest =>
      match latestByCreatedAt rest with
      | none => some vc
      | some b => if vc.createdAt < b.createdAt then some b else some vc

/-- `GetActiveVerificationCodeByContact` (unnamed/part_012). -/
def getActiveVerificationCodeByContact (vcs : List VerificationCode)
    (contact : String) (purpose : VerificationPurpose)
    (channel : VerificationChannel) : Option VerificationCode :=
  latestByCreatedAt (vcs.filter (fun vc => decide (activeByContactP contact purpose channel vc)))

/-- `GetActiveVerificationCodeByUser` (unnamed/part_012). -/
def getActiveVerificationCodeByUser (vcs : List VerificationCode)
    (userID : String) (purpose : VerificationPurpose)
    (channel : VerificationChannel) : Option VerificationCode :=
  latestByCreatedAt (vcs.filter (fun vc => decide (activeByUserP userID purpose channel vc)))

/-- `UpdateVerificationCodeForResend` (unnamed/part_012): new hash, expiry and
last-sent time, `attempts = 0`, new max-attempts, `WHERE id = $1 AND
consumed_at IS NULL`; zero affected rows is `ErrNotFound`. -/
def updateVerificationCodeForResend (vcs : List VerificationCode) (id : String)
    (newCodeHash : String) (newExpiresAt lastSentAt : Int) (maxAttempts : Int) :
    Except UserErr (List VerificationCode) :=
  if (vcs.filter (fun vc => vc.id == id && vc.consumedAt == none)).isEmpty then
    .error .notFound
  else
    .ok (vcs.map (fun vc =>
      if vc.id == id && vc.consumedAt == none then
        { vc with
          codeHash := newCodeHash
          expiresAt := newExpiresAt
          lastSentAt := lastSentAt
          attempts := 0
          maxAttempts := maxAttempts }
      else vc))

/-- `IncrementVerificationAttempt` (unnamed/part_012): `SET attempts =
attempts + 1 WHERE id = $1 AND consumed_at IS NULL RETURNING attempts,
max_attempts`.  Returns the incremented counter and the bound, with the
updated table. -/
def incrementVerificationAttempt (vcs : List VerificationCode) (id : String) :
    Except UserErr (Int × Int × List VerificationCode) :=
  match vcs.find? (fun vc => vc.id == id && vc.consumedAt == none) with
  | none => .error .notFound
  | some vc =>
      .ok (vc.attempts + 1, vc.maxAttempts,
        vcs.map (fun x =>
          if x.id == id && x.consumedAt == none then
            { x with attempts := x.attempts + 1 }
          else x))

/-- `ConsumeVerificationCode` (unnamed/part_012): `SET consumed_at = now()
WHERE id = $1 AND consumed_at IS NULL`; zero affected rows is `ErrNotFound`. -/
def consumeVerificationCode (vcs : List VerificationCode) (id : String)
    (now : Int) : Except UserErr (List VerificationCode) :=
  if (vcs.filter (fun vc => vc.id == id && vc.consumedAt == none)).isEmpty then
    .error .notFound
  else
    .ok (vcs.map (fun vc =>
      if vc.id == id && vc.consumedAt == none then
        { vc with consumedAt := some now }
      else vc))

/-! ### Action-token repository (unnamed/part_012) -/

/-- `FindActionTokenByHash`: `WHERE token_hash = $1 AND purpose = $2 AND
consumed_at IS NULL LIMIT 1` (first matching row, or `ErrNotFound`). -/
def findActionTokenByHash (tokens : List ActionToken)
    (tokenHash purpose : String) : Option ActionToken :=
  tokens.find? (fun t =>
    t.tokenHash == tokenHash && t.purpose == purpose && t.consumedAt == none)

/-- `ConsumeActionToken`: `SET consumed_at = now() WHERE id = $1 AND
consumed_at IS NULL`; zero affected rows is `ErrNotFound`. -/
def consumeActionToken (tokens : List ActionToken) (id : String) (now : Int) :
    Except UserErr (List ActionToken) :=
  if (tokens.filter (fun t => t.id == id && t.consumedAt == none)).isEmpty then
    .error .notFound
  else
    .ok (tokens.map (fun t =>
      if t.id == id && t.consumedAt == none then
        { t with consumedAt := some now }
      else t))

/-- `DeleteUserActionTokensByPurpose`: `DELETE WHERE user_id = $1 AND
purpose = $2`. -/
def deleteUserActionTokensByPurpose (tokens : List ActionToken)
    (userID purpose : String) : List ActionToken :=
  tokens.filter (fun t => !(t.userId == userID && t.purpose == purpose))

/-- `CreateActionToken`: `INSERT` of the new row (the `uuid.NewV7` row id is
already set by the caller in this embedding). -/
def createActionToken (tokens : List ActionToken) (t : ActionToken) :
    List ActionToken :=
  tokens ++ [t]

/-! ### Session provider (`session` package, unnamed/part_013) -/

/-- `session.Config` with the defaults applied by `newPostgresProvider`:
a zero sliding TTL becomes 7 days and a zero absolute TTL becomes 30 days
(durations in seconds). -/
structure SessionConfig where
  slidingTTL : Int
  absoluteTTL : Int
deriving DecidableEq, Repr

/-- The default application of `newPostgresProvider`. -/
def effectiveSessionConfig (cfg : SessionConfig) : SessionConfig :=
  { slidingTTL := if cfg.slidingTTL = 0 then 7 * 24 * 3600 else cfg.slidingTTL
    absoluteTTL := if cfg.absoluteTTL = 0 then 30 * 24 * 3600 else cfg.absoluteTTL }

/-- `nullable` (session/postgres.go): blank strings are stored as SQL NULL. -/
def nullable (s : String) : Option String :=
  if isBlank s then none else some s

/-- `CreateAuthSession` (session/postgres.go): a fresh `"auth:" ++ randomOpaque`
token, one inserted row with `last_active_at = created_at = now`.  `tokenBytes`
is the `crypto/rand` input of `randomOpaque` and `rowID` the `uuid.NewV7`
result. -/
def createAuthSession (sessions : List UserActiveSession)
    (userID userAgent ip : String) (tokenBytes : List Nat) (rowID : String)
    (now : Int) : String × List UserActiveSession :=
  let sessionID := "auth:" ++ randomOpaque tokenBytes
  (sessionID,
    sessions ++ [{ id := rowID, userId := userID, sessionToken := sessionID,
                   userAgent := nullable userAgent, ipAddress := nullable ip,
                   lastActiveAt := now, createdAt := now }])

/-- `GetAndExtend` (session/postgres.go): syntactic check, lookup by token,
absolute-TTL check, sliding-TTL check (each with best-effort row deletion on
expiry), then `last_active_at = now` on success.  Returns the user id and the
resulting table. -/
def getAndExtend (cfg : SessionConfig) (sessions : List UserActiveSession)
    (sessionID : String) (now : Int) :
    Except UserErr String × List UserActiveSession :=
  -- `strings.Contains(sessionID, ":")` is character membership in the text
  if sessionID = "" ∨ ':' ∉ sessionID.data then
    (.error .notFound, sessions)
  else
    match sessions.find? (fun s => s.sessionToken == sessionID) with
    | none => (.error .notFound, sessions)
    | some s =>
        if now - s.createdAt > (effectiveSessionConfig cfg).absoluteTTL then
          (.error .expired,
            sessions.filter (fun x => !(x.sessionToken == sessionID)))
        else if now - s.lastActiveAt > (effectiveSessionConfig cfg).slidingTTL then
          (.error .expired,
            sessions.filter (fun x => !(x.sessionToken == sessionID)))
        else
          (.ok s.userId,
            sessions.map (fun x =>
              if x.sessionToken == sessionID then { x with lastActiveAt := now }
              else x))

/-! ### OAuth-state repository (`repository_oauth.go`) -/

/-- `GetOAuthStateByState`: `WHERE state = $1 LIMIT 1` (first matching row, or
`ErrNotFound`). -/
def getOAuthStateByState (states : List OAuthState) (state : String) :
    Option OAuthState :=
  states.find? (fun st => st.state == state)

/-- `DeleteOAuthState`: `DELETE WHERE state = $1` (zero affected rows is
`ErrNotFound`, which `HandleOAuthCallback`'s deferred call discards). -/
def deleteOAuthState (states : List OAuthState) (state : String) :
    List OAuthState :=
  states.filter (fun st => !(st.state == state))

/-! ### Verification service (`service_verification.go`) -/

/-- The `Verification`/`ResetToken` configuration consumed by the service
(`config.go`): TTL in minutes, resend cooldown in seconds, attempt budget. -/
structure VerificationConfig where
  ttlMinutes : Int
  resendCooldownSeconds : Int
  maxAttempts : Int
deriving DecidableEq, Repr

/-- The zero-or-negative defaults applied at the top of
`createOrRefreshVerificationCode`: TTL 10 minutes, cooldown 60 seconds,
5 attempts. -/
def effTTLMinutes (cfg : VerificationConfig) : Int :=
  if cfg.ttlMinutes ≤ 0 then 10 else cfg.ttlMinutes

def effResendCooldownSeconds (cfg : VerificationConfig) : Int :=
  if cfg.resendCooldownSeconds ≤ 0 then 60 else cfg.resendCooldownSeconds

def effMaxAttempts (cfg : VerificationConfig) : Int :=
  if cfg.maxAttempts ≤ 0 then 5 else cfg.maxAttempts

/-- The active-row lookup of `createOrRefreshVerificationCode`: the user-scoped
lookup is preferred when a user is known, falling back to the contact-scoped
lookup.  `userID?` is `user.ID` when the Go caller passes a non-nil `*User`. -/
def lookupActiveVerificationCode (vcs : List VerificationCode)
    (userID? : Option String) (contact : String)
    (purpose : VerificationPurpose) (channel : VerificationChannel) :
    Option VerificationCode :=
  let byUser := match userID? with
    | some uid => getActiveVerificationCodeByUser vcs uid purpose channel
    | none => none
  match byUser with
  | some a => some a
  | none => getActiveVerificationCodeByContact vcs contact purpose channel

/-- `createOrRefreshVerificationCode` (service_verification.go): cooldown
check on the active row, in-place refresh of an active row, insertion of a new
row when no active row exists or the refresh affected zero rows.  `code` is
the `generateNumericCode(6)` output and `newID` the `uuid.NewV7` row id used
by `CreateVerificationCode` on the insert path.  Returns the plaintext code
and the resulting table. -/
def createOrRefreshVerificationCode (cfg : VerificationConfig)
    (vcs : List VerificationCode) (userID? : Option String) (contact : String)
    (purpose : VerificationPurpose) (channel : VerificationChannel)
    (now : Int) (code newID : String) :
    Except UserErr String × List VerificationCode :=
  let active := lookupActiveVerificationCode vcs userID? contact purpose channel
  let hash := hashToken code
  let expiresAt := now + effTTLMinutes cfg * 60
  let newRow : VerificationCode :=
    { id := newID, userId := userID?, contact := contact, purpose := purpose,
      channel := channel, codeHash := hash, attempts := 0,
      maxAttempts := effMaxAttempts cfg, lastSentAt := now,
      expiresAt := expiresAt, consumedAt := none, createdAt := now }
  match active with
  | some a =>
      if now - a.lastSentAt < effResendCooldownSeconds cfg then
        (.error .resendTooSoon, vcs)
      else
        match updateVerificationCodeForResend vcs a.id hash expiresAt now
            (effMaxAttempts cfg) with
        | .ok vcs' => (.ok code, vcs')
        | .error _ => (.ok code, vcs ++ [newRow])
  | none => (.ok code, vcs ++ [newRow])

/-- `ConfirmEmailVerification` (service_verification.go): code-presence check,
enumeration-hiding user lookup, idempotent success when already verified,
active-row lookup, TTL check, constant-time hash comparison with atomic
attempt counting on mismatch, and consume-plus-mark-verified on match. -/
def confirmEmailVerification (users : List User) (vcs : List VerificationCode)
    (email code : String) (now : Int) :
    Except UserErr Unit × List User × List VerificationCode :=
  if isBlank code then (.error .invalidOTP, users, vcs)
  else
    match findByEmail users email with
    | none => (.error .invalidOTP, users, vcs)
    | some user =>
        if user.emailVerified then (.ok (), users, vcs)
        else
          match getActiveVerificationCodeByUser vcs user.id .emailVerify .email with
          | none => (.error .invalidOTP, users, vcs)
          | some vc =>
              if now > vc.expiresAt then (.error .invalidOTP, users, vcs)
              else if hashToken code ≠ vc.codeHash then
                match incrementVerificationAttempt vcs vc.id with
                | .error .notFound =>
                    -- `attempts`/`max` keep their zero values; `0 >= 0` holds
                    (.error .tooManyAttempts, users, vcs)
                | .error _ => (.error .internal, users, vcs)
                | .ok (attempts, max, vcs') =>
                    if attempts ≥ max then (.error .tooManyAttempts, users, vcs')
                    else (.error .invalidOTP, users, vcs')
              else
                let vcs' := match consumeVerificationCode vcs vc.id now with
                  | .ok vcs' => vcs'
                  | .error _ => vcs  -- ErrNotFound is ignored
                match updateUser users { user with emailVerified := true } with
                | .ok users' => (.ok (), users', vcs')
                | .error _ => (.error .internal, users, vcs')

/-! ### Password-reset service (`service_password.go`) -/

/-- `VerifyPasswordResetCode` (service_password.go): validates the 6-digit
password-reset code and, on success, consumes it, clears prior
`password_reset` action tokens and issues a fresh one.  `tokenBytes` is the
`generateSecureToken(32)` randomness and `tokenID` the `uuid.NewV7` row id of
the new action token.  Returns the raw action token. -/
def verifyPasswordResetCode (cfg : VerificationConfig) (users : List User)
    (vcs : List VerificationCode) (tokens : List ActionToken)
    (email code : String) (now : Int) (tokenBytes : List Nat)
    (tokenID : String) :
    Except UserErr String × List VerificationCode × List ActionToken :=
  if code = "" then (.error .invalidOTP, vcs, tokens)
  else
    match findByEmail users email with
    | none => (.error .invalidOTP, vcs, tokens)
    | some user =>
        match getActiveVerificationCodeByUser vcs user.id .passwordReset .email with
        | none => (.error .invalidOTP, vcs, tokens)
        | some vc =>
            if now > vc.expiresAt then (.error .invalidOTP, vcs, tokens)
            else if hashToken code ≠ vc.codeHash then
              match incrementVerificationAttempt vcs vc.id with
              | .error .notFound => (.error .tooManyAttempts, vcs, tokens)
              | .error _ => (.error .internal, vcs, tokens)
              | .ok (attempts, max, vcs') =>
                  if attempts ≥ max then (.error .tooManyAttempts, vcs', tokens)
                  else (.error .invalidOTP, vcs', tokens)
            else
              let vcs' := match consumeVerificationCode vcs vc.id now with
                | .ok vcs' => vcs'
                | .error _ => vcs  -- ErrNotFound is ignored
              let rawToken := generateSecureToken tokenBytes
              let ttlMin := if cfg.ttlMinutes ≤ 0 then 15 else cfg.ttlMinutes
              let tokens' := deleteUserActionTokensByPurpose tokens user.id
                "password_reset"
              let newToken : ActionToken :=
                { id := tokenID, userId := user.id, purpose := "password_reset",
                  tokenHash := hashToken rawToken,
                  expiresAt := now + ttlMin * 60, consumedAt := none,
                  createdAt := now }
              (.ok rawToken, vcs', createActionToken tokens' newToken)

/-- `FinalizePasswordReset` (service_password.go): looks the action token up
by hash + purpose + not-yet-consumed, checks expiry, stores the new password
hash and consumes the token (a consume `ErrNotFound` is only logged). -/
def finalizePasswordReset (users : List User) (tokens : List ActionToken)
    (resetToken newPassword : String) (now : Int) :
    Except UserErr Unit × List User × List ActionToken :=
  if resetToken = "" then (.error .invalidResetToken, users, tokens)
  else
    match findActionTokenByHash tokens (hashToken resetToken) "password_reset" with
    | none => (.error .invalidResetToken, users, tokens)
    | some at_ =>
        if now > at_.expiresAt then (.error .invalidResetToken, users, tokens)
        else
          match updatePassword users at_.userId (hashPassword newPassword) with
          | .error _ => (.error .internal, users, tokens)
          | .ok users' =>
              let tokens' := match consumeActionToken tokens at_.id now with
                | .ok tokens' => tokens'
                | .error _ => tokens  -- ErrNotFound is only logged
              (.ok (), users', tokens')

/-! ### Registration / login (`service_auth.go`) -/

/-- `Login` (service_auth.go): enumeration-hiding user lookup, bcrypt check
before any other signal, the email-verified gate, then session creation.
`tokenBytes`/`rowID` are the randomness consumed by `CreateAuthSession`. -/
def login (users : List User) (sessions : List UserActiveSession)
    (email password : String) (tokenBytes : List Nat) (rowID : String)
    (now : Int) : Except UserErr String × List UserActiveSession :=
  match findByEmail users email with
  | none => (.error .invalidCredentials, sessions)
  | some user =>
      if ¬checkPasswordHash password user.passwordHash then
        (.error .invalidCredentials, sessions)
      else if ¬user.emailVerified then
        (.error .emailNotVerified, sessions)
      else
        let (sessionID, sessions') :=
          createAuthSession sessions user.id "" "" tokenBytes rowID now
        (.ok sessionID, sessions')

/-- `Register` (service_auth.go): a verified duplicate is a conflict; an
unverified duplicate is a re-registration that updates the name fields only
when they differ and re-runs the code flow (whose errors are only logged); a
fresh email creates an unverified user and issues a first code.  `code` and
`newVcID` feed `createOrRefreshVerificationCode`, `newUserID` is the
`uuid.NewV7` id of the new-user path. -/
def register (cfg : VerificationConfig) (users : List User)
    (vcs : List VerificationCode) (firstName lastName email password : String)
    (now : Int) (code newVcID newUserID : String) :
    Except UserErr User × List User × List VerificationCode :=
  match findByEmail users email with
  | some existing =>
      if existing.emailVerified then (.error .emailExists, users, vcs)
      else
        -- each name field is written only when it differs; the net record is
        -- `updated`, persisted only when at least one field changed
        let changed := !(existing.firstName == firstName
          && existing.lastName == lastName)
        let updated :=
          { existing with firstName := firstName, lastName := lastName }
        match (if changed then updateUser users updated else .ok users) with
        | .error _ => (.error .internal, users, vcs)
        | .ok users' =>
            let (_, vcs') := createOrRefreshVerificationCode cfg vcs
              (some existing.id) existing.email .emailVerify .email now code
              newVcID
            (.ok updated, users', vcs')
  | none =>
      let newUser : User :=
        { id := newUserID, firstName := firstName, lastName := lastName,
          email := email, passwordHash := hashPassword password,
          emailVerified := false, passwordResetToken := none,
          passwordResetTokenExpiry := none }
      let users' := users ++ [newUser]
      let (_, vcs') := createOrRefreshVerificationCode cfg vcs
        (some newUserID) email .emailVerify .email now code newVcID
      (.ok newUser, users', vcs')

/-! ### OAuth callback (`service_oauth.go`) -/

/-- The standardized `oAuthUserInfo` a provider's `getUserInfo` returns. -/
structure OAuthUserInfo where
  id : String
  email : String
  name : String
deriving DecidableEq, Repr

/-- The external effects of `HandleOAuthCallback`, threaded in as oracle
inputs: the Apple private-key parse and client-secret signing outcomes, the
provider code-exchange and user-info fetch outcomes, and the randomness of
the provisioning / session-creation steps. -/
structure OAuthCallbackEnv where
  appleKeyOk : Bool
  appleSecretOk : Bool
  exchange : Except Unit Unit
  userInfo : Except Unit OAuthUserInfo
  newUserID : String
  sessionBytes : List Nat
  sessionRowID : String
deriving Repr

/-- `strings.SplitN(name, " ", 2)` as used for provisioning: the text before
the first space and the remainder. -/
def splitName (name : String) : String × String :=
  match name.splitOn " " with
  | [] => (name, "")
  | [a] => (a, "")
  | a :: rest => (a, " ".intercalate rest)

/-- `HandleOAuthCallback` (service_oauth.go): provider construction, state
lookup, expiry check, then — with `defer DeleteOAuthState(state)` registered
only *after* the expiry check — Apple client-secret signing, code exchange,
user-info fetch, find-or-provision of the local user and session creation.
The deferred deletion runs on every return path reached after the expiry
check.  Result: outcome, OAuth-state table, user table, session table. -/
def handleOAuthCallback (states : List OAuthState) (users : List User)
    (sessions : List UserActiveSession) (provider state code : String)
    (now : Int) (env : OAuthCallbackEnv) :
    Except UserErr String × List OAuthState × List User ×
      List UserActiveSession :=
  -- `newOAuthProvider`: "google" always constructs; "apple" requires the
  -- configured private key to parse (a plain error, modelled as `internal`);
  -- anything else is `ErrUnsupportedOAuthProvider`.
  if provider = "apple" ∧ env.appleKeyOk = false then
    (.error .internal, states, users, sessions)
  else if provider ≠ "google" ∧ provider ≠ "apple" then
    (.error .unsupportedOAuthProvider, states, users, sessions)
  else
    match getOAuthStateByState states state with
    | none => (.error .oauthStateInvalid, states, users, sessions)
    | some token =>
        if now > token.expiresAt then
          -- the defer has not been registered yet: the row survives
          (.error .oauthStateExpired, states, users, sessions)
        else
          -- every path below runs the deferred `DeleteOAuthState(ctx, state)`
          let states' := deleteOAuthState states state
          if provider = "apple" ∧ env.appleSecretOk = false then
            (.error .internal, states', users, sessions)
          else
            match env.exchange with
            | .error _ => (.error .oauthExchangeFailed, states', users, sessions)
            | .ok _ =>
                match env.userInfo with
                | .error _ =>
                    (.error .oauthExchangeFailed, states', users, sessions)
                | .ok info =>
                    if info.email = "" then
                      (.error .oauthEmailMissing, states', users, sessions)
                    else
                      let (user, users') :=
                        match findByEmail users info.email with
                        | some u => (u, users)
                        | none =>
                            let (fn, ln) := splitName info.name
                            let newUser : User :=
                              { id := env.newUserID, firstName := fn,
                                lastName := ln, email := info.email,
                                passwordHash := "", emailVerified := true,
                                passwordResetToken := none,
                                passwordResetTokenExpiry := none }
                            (newUser, users ++ [newUser])
                      let (sessionID, sessions') := createAuthSession sessions
                        user.id "" "" env.sessionBytes env.sessionRowID now
                      (.ok sessionID, states', users', sessions')

/-! ### Helper lemmas about the repository embeddings -/


theorem latestByCreatedAt_mem {l : List VerificationCode}
    {x : VerificationCode} (h : latestByCreatedAt l = some x) : x ∈ l := by
  induction l with
  | nil => simp [latestByCreatedAt] at h
  | cons vc rest ih =>
      rw [latestByCreatedAt] at h
      split at h
      · injection h with h; subst h; exact List.mem_cons_self _ _
      · next b heq =>
          split at h
          · injection h with h; subst h
            exact List.mem_cons_of_mem _ (ih heq)
          · injection h with h; subst h; exact List.mem_cons_self _ _

theorem latestByCreatedAt_eq_none {l : List VerificationCode} :
    latestByCreatedAt l = none ↔ l = [] := by
  constructor
  · intro h
    cases l with
    | nil => rfl
    | cons vc rest =>
        rw [latestByCreatedAt] at h
        split at h
        · exact absurd h (by simp)
        · split at h <;> simp at h
  · rintro rfl; rfl

theorem getActiveVerificationCodeByUser_some {vcs : List VerificationCode}
    {uid : String} {p : VerificationPurpose} {ch : VerificationChannel}
    {a : VerificationCode}
    (h : getActiveVerificationCodeByUser vcs uid p ch = some a) :
    a ∈ vcs ∧ activeByUserP uid p ch a := by
  have hmem := latestByCreatedAt_mem h
  rw [List.mem_filter] at hmem
  exact ⟨hmem.1, of_decide_eq_true hmem.2⟩

theorem getActiveVerificationCodeByContact_some {vcs : List VerificationCode}
    {c : String} {p : VerificationPurpose} {ch : VerificationChannel}
    {a : VerificationCode}
    (h : getActiveVerificationCodeByContact vcs c p ch = some a) :
    a ∈ vcs ∧ activeByContactP c p ch a := by
  have hmem := latestByCreatedAt_mem h
  rw [List.mem_filter] at hmem
  exact ⟨hmem.1, of_decide_eq_true hmem.2⟩

theorem getActiveVerificationCodeByContact_none {vcs : List VerificationCode}
    {c : String} {p : VerificationPurpose} {ch : VerificationChannel}
    (h : getActiveVerificationCodeByContact vcs c p ch = none) :
    ∀ b ∈ vcs, ¬activeByContactP c p ch b := by
  intro b hb hact
  rw [getActiveVerificationCodeByContact, latestByCreatedAt_eq_none] at h
  have hmem : b ∈ (vcs.filter (fun vc => decide (activeByContactP c p ch vc))) :=
    List.mem_filter.mpr ⟨hb, decide_eq_true hact⟩
  rw [h] at hmem
  exact absurd hmem (List.not_mem_nil b)

theorem lookupActiveVerificationCode_some {vcs : List VerificationCode}
    {uid? : Option String} {contact : String} {p : VerificationPurpose}
    {ch : VerificationChannel} {a : VerificationCode}
    (h : lookupActiveVerificationCode vcs uid? contact p ch = some a) :
    a ∈ vcs ∧ a.consumedAt = none := by
  simp only [lookupActiveVerificationCode] at h
  split at h
  · next b heq =>
      injection h with h; subst h
      cases uid? with
      | none => simp at heq
      | some uid =>
          simp only at heq
          have := getActiveVerificationCodeByUser_some heq
          exact ⟨this.1, this.2.2.2.2⟩
  · have := getActiveVerificationCodeByContact_some h
    exact ⟨this.1, this.2.2.2.2⟩

theorem lookupActiveVerificationCode_none {vcs : List VerificationCode}
    {uid? : Option String} {contact : String} {p : VerificationPurpose}
    {ch : VerificationChannel}
    (h : lookupActiveVerificationCode vcs uid? contact p ch = none) :
    ∀ b ∈ vcs, ¬activeByContactP contact p ch b := by
  simp only [lookupActiveVerificationCode] at h
  split at h
  · exact absurd h (by simp)
  · exact getActiveVerificationCodeByContact_none h

/-! ### Concrete sample rows shared by the witnesses -/

/-- A sample unverified user. -/
def wUser : User :=
  { id := "u1", firstName := "Ada", lastName := "L",
    email := "ada@example.com", passwordHash := hashPassword "pw123456",
    emailVerified := false, passwordResetToken := none,
    passwordResetTokenExpiry := none }

/-- A sample active email-verify code for `wUser`, sent at t=1000, valid
until t=1600. -/
def wVC : VerificationCode :=
  { id := "vc1", userId := some "u1", contact := "ada@example.com",
    purpose := .emailVerify, channel := .email,
    codeHash := hashToken "123456", attempts := 0, maxAttempts := 5,
    lastSentAt := 1000, expiresAt := 1600, consumedAt := none,
    createdAt := 1000 }

/-- A sample verification configuration (explicit, all positive). -/
def wCfg : VerificationConfig :=
  { ttlMinutes := 10, resendCooldownSeconds := 60, maxAttempts := 5 }

/-- C9 counterexample: `generateSecureToken` is Go's padded
`base64.URLEncoding`, so the 32-byte inputs of every call site
(`generateSecureToken(32)`) produce a trailing `'='` — the claim's
"no '=' characters" fails. -/
theorem c9_counterexample_padded_token :
    '=' ∈ (generateSecureToken (List.replicate 32 0)).data := by decide

/-- C9 (amended): `randomOpaque` (sessions) is unpadded base64url and never
contains `'='`; `generateSecureToken` (reset tokens, OAuth state) uses the
padded `base64.URLEncoding`, so its output is free of `'='` exactly when the
byte length is a multiple of 3, and contains `'='` otherwise. -/
theorem c9_token_encoding_padding :
    (∀ bytes : List Nat, '=' ∉ (randomOpaque bytes).data) ∧
    (∀ bytes : List Nat, bytes.length % 3 = 0 →
      '=' ∉ (generateSecureToken bytes).data) ∧
    (∀ bytes : List Nat, bytes.length % 3 ≠ 0 →
      '=' ∈ (generateSecureToken bytes).data) := by
  refine ⟨fun bytes => ?_, fun bytes h => ?_, fun bytes h => ?_⟩
  · simpa [randomOpaque, base64RawURLEncode] using b64Groups_no_eq_sign bytes
  · simp only [generateSecureToken, base64URLEncode, b64Padding, h]
    simpa using b64Groups_no_eq_sign bytes
  · have hlt : bytes.length % 3 < 3 := Nat.mod_lt _ (by omega)
    have : bytes.length % 3 = 1 ∨ bytes.length % 3 = 2 := by omega
    rcases this with h1 | h2
    · simp [generateSecureToken, base64URLEncode, b64Padding, h1]
    · simp [generateSecureToken, base64URLEncode, b64Padding, h2]

theorem c9_witness :
    '=' ∉ (randomOpaque [0, 1, 2, 3]).data ∧
    '=' ∉ (generateSecureToken [0, 1, 2]).data ∧
    '=' ∈ (generateSecureToken (List.replicate 32 7)).data :=
  ⟨c9_token_encoding_padding.1 _,
   c9_token_encoding_padding.2.1 _ (by decide),
   c9_token_encoding_padding.2.2 _ (by decide)⟩

/-- C4: when an active code exists for the key and its last-sent timestamp is
less than the (effective) resend cooldown ago, `createOrRefreshVerificationCode`
returns `ErrResendTooSoon` and performs no store mutation: the table is
returned unchanged, so the row's hash, expiry, attempts and last-sent
timestamp are all untouched. -/
theorem c4_cooldown_rate_limited_no_mutation (cfg : VerificationConfig)
    (vcs : List VerificationCode) (userID? : Option String) (contact : String)
    (purpose : VerificationPurpose) (channel : VerificationChannel)
    (now : Int) (code newID : String) (a : VerificationCode)
    (hlook : lookupActiveVerificationCode vcs userID? contact purpose channel
      = some a)
    (hcool : now - a.lastSentAt < effResendCooldownSeconds cfg) :
    createOrRefreshVerificationCode cfg vcs userID? contact purpose channel
      now code newID = (.error .resendTooSoon, vcs) := by
  simp only [createOrRefreshVerificationCode, hlook]
  rw [if_pos hcool]

theorem c4_witness :
    lookupActiveVerificationCode [wVC] (some "u1") "ada@example.com"
      .emailVerify .email = some wVC ∧
    (1030 : Int) - wVC.lastSentAt < effResendCooldownSeconds wCfg ∧
    createOrRefreshVerificationCode wCfg [wVC] (some "u1") "ada@example.com"
      .emailVerify .email 1030 "654321" "vc2" = (.error .resendTooSoon, [wVC]) :=
  ⟨by decide, by decide,
   c4_cooldown_rate_limited_no_mutation wCfg [wVC] (some "u1")
     "ada@example.com" .emailVerify .email 1030 "654321" "vc2" wVC
     (by decide) (by decide)⟩

theorem findByEmail_some {users : List User} {email : String} {u : User}
    (h : findByEmail users email = some u) : u ∈ users ∧ u.email = email := by
  have hmem := List.mem_of_find?_eq_some h
  have hpred := List.find?_some h
  exact ⟨hmem, by simpa using hpred⟩

/-- C8: `Login` checks the password before anything else about the account:
a wrong password yields `ErrInvalidCredentials` whatever the email-verified
flag says, and only a correct password on an unverified account yields the
distinct `ErrEmailNotVerified` — in both cases the session table is left
unchanged, so no session is created. -/
theorem c8_login_password_before_verified (users : List User)
    (sessions : List UserActiveSession) (email password : String)
    (tokenBytes : List Nat) (rowID : String) (now : Int) (u : User)
    (hfind : findByEmail users email = some u) :
    (checkPasswordHash password u.passwordHash = false →
      login users sessions email password tokenBytes rowID now
        = (.error .invalidCredentials, sessions)) ∧
    (checkPasswordHash password u.passwordHash = true →
      u.emailVerified = false →
      login users sessions email password tokenBytes rowID now
        = (.error .emailNotVerified, sessions)) := by
  constructor
  · intro hpw
    simp [login, hfind, hpw]
  · intro hpw hver
    simp [login, hfind, hpw, hver]

theorem c8_witness :
    login [wUser] [] "ada@example.com" "wrong-pass" [1] "r1" 5
      = (.error .invalidCredentials, []) ∧
    login [wUser] [] "ada@example.com" "pw123456" [1] "r1" 5
      = (.error .emailNotVerified, []) :=
  ⟨(c8_login_password_before_verified [wUser] [] "ada@example.com"
      "wrong-pass" [1] "r1" 5 wUser (by decide)).1 (by decide),
   (c8_login_password_before_verified [wUser] [] "ada@example.com"
      "pw123456" [1] "r1" 5 wUser (by decide)).2 (by decide) (by decide)⟩

/-- C10: re-`Register` with the email of an existing **unverified** user
leaves that user's password hash, email and email-verified flag untouched
(the newly supplied password is ignored), rewrites only the name fields —
and issues no user-table write at all when both names already match.
`huniq` reflects the unique index on `users.id`. -/
theorem c10_reregister_updates_names_only (cfg : VerificationConfig)
    (users : List User) (vcs : List VerificationCode)
    (firstName lastName email password : String) (now : Int)
    (code newVcID newUserID : String) (u : User)
    (hfind : findByEmail users email = some u)
    (hunv : u.emailVerified = false)
    (huniq : ∀ x ∈ users, x.id = u.id → x = u) :
    (register cfg users vcs firstName lastName email password now code newVcID
        newUserID).1
      = .ok { u with firstName := firstName, lastName := lastName } ∧
    (register cfg users vcs firstName lastName email password now code newVcID
        newUserID).2.1
      = users.map (fun x =>
          if x.id = u.id then
            { u with firstName := firstName, lastName := lastName }
          else x) ∧
    (u.firstName = firstName ∧ u.lastName = lastName →
      (register cfg users vcs firstName lastName email password now code
          newVcID newUserID).2.1 = users) := by
  have humem := (findByEmail_some hfind).1
  have hverneg : ¬u.emailVerified = true := by simp [hunv]
  by_cases hch : (u.firstName == firstName && u.lastName == lastName) = true
  · -- both names already match: no `repo.Update` call happens
    have hfn : u.firstName = firstName := eq_of_beq ((Bool.and_eq_true _ _).mp hch).1
    have hln : u.lastName = lastName := eq_of_beq ((Bool.and_eq_true _ _).mp hch).2
    have hmap : users.map (fun x =>
        if x.id = u.id then
          { u with firstName := firstName, lastName := lastName }
        else x) = users := by
      have hcongr : users.map (fun x =>
          if x.id = u.id then
            { u with firstName := firstName, lastName := lastName }
          else x) = users.map id := by
        apply List.map_congr_left
        intro x hx
        by_cases hid : x.id = u.id
        · have hx' : x = u := huniq x hx hid
          rw [if_pos hid, hx', ← hfn, ← hln]
          rfl
        · rw [if_neg hid]; rfl
      rw [hcongr, List.map_id]
    refine ⟨?_, ?_, fun _ => ?_⟩
    · simp only [register, hfind]
      rw [if_neg hverneg]
      simp [hch]
    · simp only [register, hfind]
      rw [if_neg hverneg]
      simp only [hch, Bool.not_true]
      simp [hmap]
    · simp only [register, hfind]
      rw [if_neg hverneg]
      simp [hch]
  · -- at least one name differs: a single `repo.Update` rewrites the names
    have hfilterne : (users.filter (fun x => x.id == u.id)) ≠ [] :=
      List.ne_nil_of_mem (List.mem_filter.mpr ⟨humem, by simp⟩)
    have hupd : updateUser users
        { u with firstName := firstName, lastName := lastName }
        = .ok (users.map (fun x =>
            if x.id = u.id then
              { u with firstName := firstName, lastName := lastName }
            else x)) := by
      simp only [updateUser]
      rw [if_neg (by simpa [List.isEmpty_iff] using hfilterne)]
      congr 1
      apply List.map_congr_left
      intro x hx
      by_cases hid : x.id = u.id
      · have hx' : x = u := huniq x hx hid
        subst hx'
        simp
      · simp [hid]
    refine ⟨?_, ?_, fun hnm => ?_⟩
    · simp only [register, hfind]
      rw [if_neg hverneg]
      simp [hch, hupd]
    · simp only [register, hfind]
      rw [if_neg hverneg]
      simp [hch, hupd]
    · exact absurd (by simp [hnm.1, hnm.2]) hch

theorem c10_witness :
    (register wCfg [wUser] [] "Grace" "H" "ada@example.com" "other-pass"
        2000 "111111" "vc9" "u9").1
      = .ok { wUser with firstName := "Grace", lastName := "H" } ∧
    (register wCfg [wUser] [] "Grace" "H" "ada@example.com" "other-pass"
        2000 "111111" "vc9" "u9").2.1
      = [{ wUser with firstName := "Grace", lastName := "H" }] := by
  have h := c10_reregister_updates_names_only wCfg [wUser] [] "Grace" "H"
    "ada@example.com" "other-pass" 2000 "111111" "vc9" "u9" wUser
    (by decide) (by decide)
    (by intro x hx hid; simp at hx; exact hx)
  refine ⟨h.1, ?_⟩
  rw [h.2.1]
  decide

/-- C7: the first `FinalizePasswordReset` with a valid, unexpired reset token
succeeds, rewrites the password hash of the token's user and consumes the
token row; re-presenting the same plaintext token then fails as
`ErrInvalidResetToken`, because the lookup requires `consumed_at IS NULL`.
`huser` says the token's user exists; `huniq` reflects the unique index on
`action_tokens.token_hash`. -/
theorem c7_finalize_reset_single_use (users : List User)
    (tokens : List ActionToken) (t newPassword newPassword₂ : String)
    (now now₂ : Int) (tok : ActionToken)
    (ht : t ≠ "")
    (hfind : findActionTokenByHash tokens (hashToken t) "password_reset"
      = some tok)
    (hexp : ¬now > tok.expiresAt)
    (huser : ∃ u ∈ users, u.id = tok.userId)
    (huniq : ∀ x ∈ tokens, x.tokenHash = hashToken t →
      x.purpose = "password_reset" → x.consumedAt = none → x.id = tok.id) :
    (finalizePasswordReset users tokens t newPassword now).1 = .ok () ∧
    (∀ x ∈ (finalizePasswordReset users tokens t newPassword now).2.1,
      x.id = tok.userId → x.passwordHash = hashPassword newPassword) ∧
    (∀ x ∈ (finalizePasswordReset users tokens t newPassword now).2.2,
      x.id = tok.id → x.consumedAt ≠ none) ∧
    (finalizePasswordReset
        (finalizePasswordReset users tokens t newPassword now).2.1
        (finalizePasswordReset users tokens t newPassword now).2.2
        t newPassword₂ now₂).1 = .error .invalidResetToken := by
  obtain ⟨u0, hu0mem, hu0id⟩ := huser
  have htokfacts := List.find?_some hfind
  have htokmem := List.mem_of_find?_eq_some hfind
  simp only [Bool.and_eq_true, beq_iff_eq] at htokfacts
  have htokcons : tok.consumedAt = none := by
    have := htokfacts.2
    exact by simpa using this
  -- `UpdatePassword` affects at least the row of `u0`
  have hupdne : (users.filter (fun x => x.id == tok.userId)) ≠ [] :=
    List.ne_nil_of_mem (List.mem_filter.mpr ⟨hu0mem, by simp [hu0id]⟩)
  have hupd : updatePassword users tok.userId (hashPassword newPassword)
      = .ok (users.map (fun x =>
          if x.id == tok.userId then
            { x with
              passwordHash := hashPassword newPassword
              passwordResetToken := none
              passwordResetTokenExpiry := none }
          else x)) := by
    simp only [updatePassword]
    rw [if_neg (by simpa [List.isEmpty_iff] using hupdne)]
  -- `ConsumeActionToken` affects at least the found row
  have hconsne : (tokens.filter (fun x => x.id == tok.id
      && x.consumedAt == none)) ≠ [] :=
    List.ne_nil_of_mem (List.mem_filter.mpr ⟨htokmem, by simp [htokcons]⟩)
  have hcons : consumeActionToken tokens tok.id now
      = .ok (tokens.map (fun x =>
          if x.id == tok.id && x.consumedAt == none then
            { x with consumedAt := some now }
          else x)) := by
    simp only [consumeActionToken]
    rw [if_neg (by simpa [List.isEmpty_iff] using hconsne)]
  have hrun : finalizePasswordReset users tokens t newPassword now
      = (.ok (),
         users.map (fun x =>
           if x.id == tok.userId then
             { x with
               passwordHash := hashPassword newPassword
               passwordResetToken := none
               passwordResetTokenExpiry := none }
           else x),
         tokens.map (fun x =>
           if x.id == tok.id && x.consumedAt == none then
             { x with consumedAt := some now }
           else x)) := by
    simp only [finalizePasswordReset, hfind, hupd, hcons]
    rw [if_neg ht, if_neg hexp]
  refine ⟨by rw [hrun], ?_, ?_, ?_⟩
  · rw [hrun]
    intro x hx hid
    simp only [List.mem_map] at hx
    obtain ⟨y, hy, rfl⟩ := hx
    by_cases hyid : (y.id == tok.userId) = true
    · simp [hyid]
    · rw [if_neg hyid] at hid ⊢
      exact absurd (by simp [hid]) hyid
  · rw [hrun]
    intro x hx hid
    simp only [List.mem_map] at hx
    obtain ⟨y, hy, rfl⟩ := hx
    by_cases hc : (y.id == tok.id && y.consumedAt == none) = true
    · simp [hc]
    · rw [if_neg hc] at hid ⊢
      intro hnone
      exact hc (by simp [hid, hnone])
  · rw [hrun]
    have hnone : findActionTokenByHash
        (tokens.map (fun x =>
          if x.id == tok.id && x.consumedAt == none then
            { x with consumedAt := some now }
          else x))
        (hashToken t) "password_reset" = none := by
      rw [findActionTokenByHash, List.find?_eq_none]
      intro x hx
      simp only [List.mem_map] at hx
      obtain ⟨y, hy, rfl⟩ := hx
      by_cases hc : (y.id == tok.id && y.consumedAt == none) = true
      · simp [hc]
      · rw [if_neg hc]
        simp only [Bool.and_eq_true, beq_iff_eq, not_and]
        intro hpair hn
        have hyid : y.id = tok.id := huniq y hy hpair.1 hpair.2 hn
        exact hc (by simp [hyid, hn])
    simp only [finalizePasswordReset, hnone]
    rw [if_neg ht]

/-- A sample unconsumed password-reset action token for `wUser`. -/
def wToken : ActionToken :=
  { id := "t1", userId := "u1", purpose := "password_reset",
    tokenHash := hashToken "RAWTOKEN", expiresAt := 5000, consumedAt := none,
    createdAt := 0 }

theorem c7_witness :
    (finalizePasswordReset [wUser] [wToken] "RAWTOKEN" "newpass123" 100).1
      = .ok () ∧
    (finalizePasswordReset
        (finalizePasswordReset [wUser] [wToken] "RAWTOKEN" "newpass123" 100).2.1
        (finalizePasswordReset [wUser] [wToken] "RAWTOKEN" "newpass123" 100).2.2
        "RAWTOKEN" "otherpass" 200).1 = .error .invalidResetToken := by
  have h := c7_finalize_reset_single_use [wUser] [wToken] "RAWTOKEN"
    "newpass123" "otherpass" 100 200 wToken
    (by decide) (by decide) (by decide) (by decide) (by decide)
  exact ⟨h.1, h.2.2.2⟩

theorem find?_append_of_none {α : Type} {p : α → Bool} {l₁ l₂ : List α}
    (h : l₁.find? p = none) : (l₁ ++ l₂).find? p = l₂.find? p := by
  induction l₁ with
  | nil => simp
  | cons a t ih =>
      rw [List.find?_eq_none] at h
      have hpa : p a = false := by
        have := h a (List.mem_cons_self a t)
        simpa using this
      rw [List.cons_append, List.find?_cons_of_neg _ (by simp [hpa])]
      exact ih (List.find?_eq_none.mpr (fun x hx => h x (List.mem_cons_of_mem _ hx)))

/-- A fresh session row as `CreateAuthSession` inserts it. -/
def freshSessionRow (userID ua ip : String) (tokenBytes : List Nat)
    (rowID : String) (now : Int) : UserActiveSession :=
  { id := rowID, userId := userID,
    sessionToken := "auth:" ++ randomOpaque tokenBytes,
    userAgent := nullable ua, ipAddress := nullable ip,
    lastActiveAt := now, createdAt := now }

/-- C5: the session lifecycle around `CreateAuthSession`/`GetAndExtend`
(with non-negative effective TTLs): a fresh session validates immediately;
a found session is rejected as expired once `now - createdAt` exceeds the
absolute TTL no matter what `lastActiveAt` says, and once `now - lastActiveAt`
exceeds the sliding TTL even when the absolute TTL has not passed; extension
never changes any surviving row's `createdAt` (or token or user); and every
successful validation returns the session's user and bumps the matching
row's `lastActiveAt` to `now`. -/
theorem c5_session_lifecycle (cfg : SessionConfig)
    (habs : 0 ≤ (effectiveSessionConfig cfg).absoluteTTL)
    (hslid : 0 ≤ (effectiveSessionConfig cfg).slidingTTL) :
    (∀ (sessions : List UserActiveSession) (userID ua ip : String)
        (tokenBytes : List Nat) (rowID : String) (now : Int),
      (∀ s ∈ sessions, s.sessionToken ≠ "auth:" ++ randomOpaque tokenBytes) →
      (getAndExtend cfg
          (createAuthSession sessions userID ua ip tokenBytes rowID now).2
          (createAuthSession sessions userID ua ip tokenBytes rowID now).1
          now).1 = .ok userID) ∧
    (∀ (sessions : List UserActiveSession) (sid : String) (now : Int)
        (s : UserActiveSession),
      sessions.find? (fun x => x.sessionToken == sid) = some s →
      ¬(sid = "" ∨ ':' ∉ sid.data) →
      now - s.createdAt > (effectiveSessionConfig cfg).absoluteTTL →
      (getAndExtend cfg sessions sid now).1 = .error .expired) ∧
    (∀ (sessions : List UserActiveSession) (sid : String) (now : Int)
        (s : UserActiveSession),
      sessions.find? (fun x => x.sessionToken == sid) = some s →
      ¬(sid = "" ∨ ':' ∉ sid.data) →
      ¬now - s.createdAt > (effectiveSessionConfig cfg).absoluteTTL →
      now - s.lastActiveAt > (effectiveSessionConfig cfg).slidingTTL →
      (getAndExtend cfg sessions sid now).1 = .error .expired) ∧
    (∀ (sessions : List UserActiveSession) (sid : String) (now : Int)
        (x : UserActiveSession),
      x ∈ (getAndExtend cfg sessions sid now).2 →
      ∃ y ∈ sessions, x.createdAt = y.createdAt ∧
        x.sessionToken = y.sessionToken ∧ x.userId = y.userId) ∧
    (∀ (sessions : List UserActiveSession) (sid : String) (now : Int)
        (s : UserActiveSession),
      sessions.find? (fun x => x.sessionToken == sid) = some s →
      ¬(sid = "" ∨ ':' ∉ sid.data) →
      ¬now - s.createdAt > (effectiveSessionConfig cfg).absoluteTTL →
      ¬now - s.lastActiveAt > (effectiveSessionConfig cfg).slidingTTL →
      (getAndExtend cfg sessions sid now).1 = .ok s.userId ∧
      (∀ x ∈ (getAndExtend cfg sessions sid now).2,
        x.sessionToken = sid → x.lastActiveAt = now)) := by
  refine ⟨?_, ?_, ?_, ?_, ?_⟩
  · -- newly created session validates at once
    intro sessions userID ua ip tokenBytes rowID now hfresh
    have hne : ("auth:" ++ randomOpaque tokenBytes) ≠ "" := by
      intro h
      have hd := congrArg String.data h
      rw [String.data_append] at hd
      simp at hd
    have hmem : ':' ∈ ("auth:" ++ randomOpaque tokenBytes).data := by
      rw [String.data_append]
      exact List.mem_append_left _ (by decide)
    have hsyn : ¬("auth:" ++ randomOpaque tokenBytes = ""
        ∨ ':' ∉ ("auth:" ++ randomOpaque tokenBytes).data) := by
      rintro (h | h)
      · exact hne h
      · exact h hmem
    have hnone : sessions.find?
        (fun s => s.sessionToken == "auth:" ++ randomOpaque tokenBytes)
        = none :=
      List.find?_eq_none.mpr (fun s hs => by simp [hfresh s hs])
    have hfind : List.find?
        (fun s => s.sessionToken == "auth:" ++ randomOpaque tokenBytes)
        (sessions ++ [freshSessionRow userID ua ip tokenBytes rowID now])
        = some (freshSessionRow userID ua ip tokenBytes rowID now) := by
      rw [find?_append_of_none hnone]
      simp [freshSessionRow]
    have h1 : ¬(now - now > (effectiveSessionConfig cfg).absoluteTTL) := by
      omega
    have h2 : ¬(now - now > (effectiveSessionConfig cfg).slidingTTL) := by
      omega
    simp only [createAuthSession, getAndExtend]
    rw [if_neg hsyn]
    have hfind' : List.find?
        (fun s => s.sessionToken == "auth:" ++ randomOpaque tokenBytes)
        (sessions ++
          [{ id := rowID, userId := userID,
             sessionToken := "auth:" ++ randomOpaque tokenBytes,
             userAgent := nullable ua, ipAddress := nullable ip,
             lastActiveAt := now, createdAt := now }])
        = some (freshSessionRow userID ua ip tokenBytes rowID now) := hfind
    rw [hfind']
    simp only [freshSessionRow]
    rw [if_neg h1, if_neg h2]
  · -- absolute-TTL expiry, whatever `lastActiveAt` is
    intro sessions sid now s hfind hsyn habs'
    simp only [getAndExtend, hfind]
    rw [if_neg hsyn, if_pos habs']
  · -- sliding-TTL expiry while the absolute TTL has not passed
    intro sessions sid now s hfind hsyn habs' hslid'
    simp only [getAndExtend, hfind]
    rw [if_neg hsyn, if_neg habs', if_pos hslid']
  · -- `createdAt` (and token and user) of surviving rows are never rewritten
    intro sessions sid now x hx
    simp only [getAndExtend] at hx
    split at hx
    · exact ⟨x, hx, rfl, rfl, rfl⟩
    · split at hx
      · exact ⟨x, hx, rfl, rfl, rfl⟩
      · split at hx
        · exact ⟨x, (List.mem_filter.mp hx).1, rfl, rfl, rfl⟩
        · split at hx
          · exact ⟨x, (List.mem_filter.mp hx).1, rfl, rfl, rfl⟩
          · simp only [List.mem_map] at hx
            obtain ⟨y, hy, rfl⟩ := hx
            by_cases htok : (y.sessionToken == sid) = true
            · exact ⟨y, hy, by simp [htok], by simp [htok], by simp [htok]⟩
            · exact ⟨y, hy, by simp [htok], by simp [htok], by simp [htok]⟩
  · -- successful validation returns the user and bumps `lastActiveAt`
    intro sessions sid now s hfind hsyn habs' hslid'
    constructor
    · simp only [getAndExtend, hfind]
      rw [if_neg hsyn, if_neg habs', if_neg hslid']
    · intro x hx htok
      simp only [getAndExtend, hfind] at hx
      rw [if_neg hsyn, if_neg habs', if_neg hslid'] at hx
      simp only [List.mem_map] at hx
      obtain ⟨y, hy, rfl⟩ := hx
      by_cases hq : (y.sessionToken == sid) = true
      · simp [hq]
      · rw [if_neg hq] at htok ⊢
        exact absurd (by simp [htok]) hq

theorem c5_witness :
    (getAndExtend ⟨0, 0⟩ (createAuthSession [] "u1" "" "" [9, 9, 9] "r1" 50).2
        (createAuthSession [] "u1" "" "" [9, 9, 9] "r1" 50).1 50).1
      = .ok "u1" :=
  (c5_session_lifecycle ⟨0, 0⟩ (by decide) (by decide)).1 [] "u1" "" ""
    [9, 9, 9] "r1" 50 (by simp)

/-- A sample OAuth state row that is already expired at t=100. -/
def wStateExpired : OAuthState :=
  { state := "s1", provider := "google", userId := none, verifier := "ver",
    expiresAt := 50, createdAt := 0, updatedAt := 0 }

/-- A sample OAuth state row still valid at t=100. -/
def wStateLive : OAuthState :=
  { state := "s1", provider := "google", userId := none, verifier := "ver",
    expiresAt := 500, createdAt := 0, updatedAt := 0 }

/-- A sample callback environment in which every external step succeeds. -/
def wEnv : OAuthCallbackEnv :=
  { appleKeyOk := true, appleSecretOk := true, exchange := .ok (),
    userInfo := .ok { id := "pid", email := "p@x.com", name := "P Q" },
    newUserID := "u9", sessionBytes := [1, 2, 3], sessionRowID := "r9" }

/-- C6 counterexample: when the stored state row is successfully read but its
expiry has passed, `HandleOAuthCallback` returns before registering the
deferred `DeleteOAuthState`, so the row is **not** deleted on that branch —
contradicting the claim's "regardless … including the expired branch". -/
theorem c6_counterexample_expired_row_survives :
    getOAuthStateByState [wStateExpired] "s1" = some wStateExpired ∧
    (handleOAuthCallback [wStateExpired] [] [] "google" "s1" "c0" 100
        wEnv).1 = .error .oauthStateExpired ∧
    wStateExpired ∈ (handleOAuthCallback [wStateExpired] [] [] "google" "s1"
        "c0" 100 wEnv).2.1 :=
  ⟨by decide, rfl, by decide⟩

/-- C6 (amended): when the callback reads a stored state row that has **not**
expired, the row is deleted before the call returns on every subsequent
branch — client-secret signing, code exchange, user-info fetch, provisioning,
success — and a second callback with the same state then fails as
`ErrOAuthStateInvalid`.  On the found-but-expired branch the deferred
deletion has not been registered yet and the row survives (see the
counterexample); the background `DeleteExpiredOAuthStates` sweep is what
removes such rows. -/
theorem c6_state_single_use_when_unexpired (states : List OAuthState)
    (users : List User) (sessions : List UserActiveSession)
    (provider state code : String) (now : Int) (env : OAuthCallbackEnv)
    (tok : OAuthState)
    (hfind : getOAuthStateByState states state = some tok)
    (hexp : ¬now > tok.expiresAt)
    (hprov : provider = "google"
      ∨ (provider = "apple" ∧ env.appleKeyOk = true)) :
    (∀ st ∈ (handleOAuthCallback states users sessions provider state code
        now env).2.1, st.state ≠ state) ∧
    (∀ (users₂ : List User) (sessions₂ : List UserActiveSession)
        (code₂ : String) (now₂ : Int) (env₂ : OAuthCallbackEnv),
      (provider = "apple" → env₂.appleKeyOk = true) →
      (handleOAuthCallback
          (handleOAuthCallback states users sessions provider state code now
            env).2.1
          users₂ sessions₂ provider state code₂ now₂ env₂).1
        = .error .oauthStateInvalid) := by
  have hc1 : ¬(provider = "apple" ∧ env.appleKeyOk = false) := by
    rcases hprov with rfl | ⟨rfl, hk⟩
    · intro h; exact absurd h.1 (by decide)
    · intro h; rw [hk] at h; exact absurd h.2 (by decide)
  have hc2 : ¬(provider ≠ "google" ∧ provider ≠ "apple") := by
    rcases hprov with rfl | ⟨rfl, hk⟩
    · intro h; exact h.1 rfl
    · intro h; exact h.2 rfl
  have hstates : (handleOAuthCallback states users sessions provider state
      code now env).2.1 = deleteOAuthState states state := by
    simp only [handleOAuthCallback, hfind]
    rw [if_neg hc1, if_neg hc2, if_neg hexp]
    split
    · rfl
    · split
      · rfl
      · split
        · rfl
        · split
          · rfl
          · rfl
  constructor
  · rw [hstates]
    intro st hst
    have hm := List.mem_filter.mp hst
    simpa using hm.2
  · intro users₂ sessions₂ code₂ now₂ env₂ hk₂
    have hnone : getOAuthStateByState (deleteOAuthState states state) state
        = none := by
      rw [getOAuthStateByState, List.find?_eq_none]
      intro x hx
      have hm := List.mem_filter.mp hx
      simpa using hm.2
    have hc1' : ¬(provider = "apple" ∧ env₂.appleKeyOk = false) := by
      intro h
      rw [hk₂ h.1] at h
      exact absurd h.2 (by decide)
    rw [hstates]
    simp only [handleOAuthCallback, hnone]
    rw [if_neg hc1', if_neg hc2]

theorem c6_witness :
    (∀ st ∈ (handleOAuthCallback [wStateLive] [] [] "google" "s1" "c0" 100
        wEnv).2.1, st.state ≠ "s1") ∧
    (handleOAuthCallback
        (handleOAuthCallback [wStateLive] [] [] "google" "s1" "c0" 100
          wEnv).2.1
        [] [] "google" "s1" "c1" 200 wEnv).1 = .error .oauthStateInvalid := by
  have h := c6_state_single_use_when_unexpired [wStateLive] [] [] "google"
    "s1" "c0" 100 wEnv wStateLive (by decide) (by decide) (Or.inl rfl)
  exact ⟨h.1, h.2 [] [] "c1" 200 wEnv (fun hg => by decide)⟩

/-! ### C1: one active verification code per (contact, purpose, channel) -/

/-- No two distinct rows are simultaneously unconsumed with the same
(contact, purpose, channel) key — the partial-unique-index invariant
`uidx_verification_codes_active_contact`. -/
def oneActivePerContactKey (vcs : List VerificationCode) : Prop :=
  vcs.Pairwise (fun a b => ¬(a.consumedAt = none ∧ b.consumedAt = none ∧
    a.contact = b.contact ∧ a.purpose = b.purpose ∧ a.channel = b.channel))

instance (vcs : List VerificationCode) :
    Decidable (oneActivePerContactKey vcs) := by
  unfold oneActivePerContactKey; infer_instance

/-- The in-place refresh touches only hash/expiry/last-sent/attempt columns,
so the (contact, purpose, channel, unconsumed) abstraction of every row is
unchanged and the invariant survives. -/
theorem oneActivePerContactKey_refresh (vcs : List VerificationCode)
    (id hash : String) (exp last max : Int)
    (h : oneActivePerContactKey vcs) :
    oneActivePerContactKey (vcs.map (fun vc =>
      if vc.id == id && vc.consumedAt == none then
        { vc with
          codeHash := hash
          expiresAt := exp
          lastSentAt := last
          attempts := 0
          maxAttempts := max }
      else vc)) := by
  have hfields : ∀ x : VerificationCode,
      ((if x.id == id && x.consumedAt == none then
          ({ x with
             codeHash := hash
             expiresAt := exp
             lastSentAt := last
             attempts := 0
             maxAttempts := max } : VerificationCode)
        else x).consumedAt = x.consumedAt ∧
       (if x.id == id && x.consumedAt == none then
          ({ x with
             codeHash := hash
             expiresAt := exp
             lastSentAt := last
             attempts := 0
             maxAttempts := max } : VerificationCode)
        else x).contact = x.contact ∧
       (if x.id == id && x.consumedAt == none then
          ({ x with
             codeHash := hash
             expiresAt := exp
             lastSentAt := last
             attempts := 0
             maxAttempts := max } : VerificationCode)
        else x).purpose = x.purpose ∧
       (if x.id == id && x.consumedAt == none then
          ({ x with
             codeHash := hash
             expiresAt := exp
             lastSentAt := last
             attempts := 0
             maxAttempts := max } : VerificationCode)
        else x).channel = x.channel) := by
    intro x
    by_cases hx : (x.id == id && x.consumedAt == none) = true <;>
      simp [hx]
  rw [oneActivePerContactKey, List.pairwise_map]
  apply h.imp
  intro a b hab hcl
  apply hab
  obtain ⟨h1, h2, h3, h4, h5⟩ := hcl
  rw [(hfields a).1] at h1
  rw [(hfields b).1] at h2
  rw [(hfields a).2.1, (hfields b).2.1] at h3
  rw [(hfields a).2.2.1, (hfields b).2.2.1] at h4
  rw [(hfields a).2.2.2, (hfields b).2.2.2] at h5
  exact ⟨h1, h2, h3, h4, h5⟩

/-- One `createOrRefreshVerificationCode` call preserves the invariant, and
grows the table by one row only when no active row was found for the key. -/
theorem createOrRefresh_step_invariant (cfg : VerificationConfig)
    (vcs : List VerificationCode) (uid? : Option String) (contact : String)
    (p : VerificationPurpose) (ch : VerificationChannel) (now : Int)
    (code newID : String) (h : oneActivePerContactKey vcs) :
    oneActivePerContactKey
      (createOrRefreshVerificationCode cfg vcs uid? contact p ch now code
        newID).2 ∧
    ((createOrRefreshVerificationCode cfg vcs uid? contact p ch now code
        newID).2.length = vcs.length ∨
     ((createOrRefreshVerificationCode cfg vcs uid? contact p ch now code
        newID).2.length = vcs.length + 1 ∧
      lookupActiveVerificationCode vcs uid? contact p ch = none)) := by
  cases hlook : lookupActiveVerificationCode vcs uid? contact p ch with
  | none =>
      have hnoact := lookupActiveVerificationCode_none hlook
      simp only [createOrRefreshVerificationCode, hlook]
      constructor
      · rw [oneActivePerContactKey, List.pairwise_append]
        refine ⟨h, List.pairwise_singleton _ _, ?_⟩
        intro a ha b hb hcl
        simp only [List.mem_singleton] at hb
        subst hb
        obtain ⟨h1, h2, h3, h4, h5⟩ := hcl
        simp only at h3 h4
        have h5' : a.channel = ch := by
          cases ch
          cases hac : a.channel
          rfl
        exact hnoact a ha ⟨h3, h4, h5', h1⟩
      · right
        simp
  | some a =>
      have ⟨hamem, hacons⟩ := lookupActiveVerificationCode_some hlook
      by_cases hcool : now - a.lastSentAt < effResendCooldownSeconds cfg
      · simp only [createOrRefreshVerificationCode, hlook]
        rw [if_pos hcool]
        exact ⟨h, Or.inl rfl⟩
      · have hne : (vcs.filter (fun vc =>
            vc.id == a.id && vc.consumedAt == none)) ≠ [] :=
          List.ne_nil_of_mem (List.mem_filter.mpr ⟨hamem, by simp [hacons]⟩)
        have hupd : updateVerificationCodeForResend vcs a.id (hashToken code)
            (now + effTTLMinutes cfg * 60) now (effMaxAttempts cfg)
            = .ok (vcs.map (fun vc =>
                if vc.id == a.id && vc.consumedAt == none then
                  { vc with
                    codeHash := hashToken code
                    expiresAt := now + effTTLMinutes cfg * 60
                    lastSentAt := now
                    attempts := 0
                    maxAttempts := effMaxAttempts cfg }
                else vc)) := by
          simp only [updateVerificationCodeForResend]
          rw [if_neg (by simpa [List.isEmpty_iff] using hne)]
        simp only [createOrRefreshVerificationCode, hlook, hupd]
        rw [if_neg hcool]
        exact ⟨oneActivePerContactKey_refresh vcs a.id (hashToken code)
          (now + effTTLMinutes cfg * 60) now (effMaxAttempts cfg) h,
          Or.inl (by simp)⟩

/-- One `createOrRefreshVerificationCode` call, as issued by register /
resend / forgot-password. -/
structure CreateCall where
  userID? : Option String
  contact : String
  purpose : VerificationPurpose
  channel : VerificationChannel
  now : Int
  code : String
  newID : String

/-- A sequence of `createOrRefreshVerificationCode` calls, threading the
verification-code table through. -/
def runCreateOrRefresh (cfg : VerificationConfig)
    (vcs : List VerificationCode) : List CreateCall → List VerificationCode
  | [] => vcs
  | c :: cs =>
      runCreateOrRefresh cfg
        (createOrRefreshVerificationCode cfg vcs c.userID? c.contact
          c.purpose c.channel c.now c.code c.newID).2 cs

/-- C1: starting from a table with at most one active row per
(contact, purpose, channel) key, any sequence of
`createOrRefreshVerificationCode` calls keeps it that way; moreover a single
call never inserts a second row for a key that already has an active row —
the table grows only when the active-row lookup found nothing (the
refresh-affected-zero-rows fallback being unreachable in a sequential run). -/
theorem c1_one_active_code_per_key (cfg : VerificationConfig)
    (vcs : List VerificationCode) (h : oneActivePerContactKey vcs) :
    (∀ calls : List CreateCall,
      oneActivePerContactKey (runCreateOrRefresh cfg vcs calls)) ∧
    (∀ (uid? : Option String) (contact : String) (p : VerificationPurpose)
        (ch : VerificationChannel) (now : Int) (code newID : String),
      (createOrRefreshVerificationCode cfg vcs uid? contact p ch now code
          newID).2.length = vcs.length ∨
      ((createOrRefreshVerificationCode cfg vcs uid? contact p ch now code
          newID).2.length = vcs.length + 1 ∧
       lookupActiveVerificationCode vcs uid? contact p ch = none)) := by
  constructor
  · intro calls
    induction calls generalizing vcs with
    | nil => exact h
    | cons c cs ih =>
        rw [runCreateOrRefresh]
        exact ih _ (createOrRefresh_step_invariant cfg vcs c.userID?
          c.contact c.purpose c.channel c.now c.code c.newID h).1
  · intro uid? contact p ch now code newID
    exact (createOrRefresh_step_invariant cfg vcs uid? contact p ch now code
      newID h).2

theorem c1_witness :
    oneActivePerContactKey
      (runCreateOrRefresh wCfg []
        [⟨some "u1", "ada@example.com", .emailVerify, .email, 10, "111111",
          "v1"⟩,
         ⟨some "u1", "ada@example.com", .emailVerify, .email, 500, "222222",
          "v2"⟩,
         ⟨none, "bob@example.com", .passwordReset, .email, 600, "333333",
          "v3"⟩]) :=
  (c1_one_active_code_per_key wCfg [] (by decide)).1 _

/-! ### Singleton-store computation lemmas for the verify flows -/

theorem findByEmail_singleton (u : User) : findByEmail [u] u.email = some u := by
  simp [findByEmail]

theorem getActiveByUser_singleton (vc : VerificationCode) (uid : String)
    (p : VerificationPurpose) (ch : VerificationChannel)
    (h : activeByUserP uid p ch vc) :
    getActiveVerificationCodeByUser [vc] uid p ch = some vc := by
  simp [getActiveVerificationCodeByUser, List.filter, decide_eq_true h,
    latestByCreatedAt]

theorem getActiveByUser_singleton_none (vc : VerificationCode) (uid : String)
    (p : VerificationPurpose) (ch : VerificationChannel)
    (h : ¬activeByUserP uid p ch vc) :
    getActiveVerificationCodeByUser [vc] uid p ch = none := by
  simp [getActiveVerificationCodeByUser, List.filter, decide_eq_false h,
    latestByCreatedAt]

/-- A wrong code against a singleton store: the attempt counter is atomically
incremented by one, and the outcome is `TooManyAttempts` exactly when the new
value reaches the bound, plain `Invalid` otherwise. -/
theorem confirm_wrong_step (u : User) (vc : VerificationCode)
    (hu : u.emailVerified = false) (huid : vc.userId = some u.id)
    (hpurp : vc.purpose = .emailVerify) (hchan : vc.channel = .email)
    (hcons : vc.consumedAt = none) (now : Int)
    (hexp : ¬now > vc.expiresAt) (w : String)
    (hwne : isBlank w = false) (hwh : hashToken w ≠ vc.codeHash) :
    confirmEmailVerification [u] [vc] u.email w now
      = (if vc.attempts + 1 ≥ vc.maxAttempts then
           Except.error UserErr.tooManyAttempts
         else Except.error UserErr.invalidOTP,
         [u], [{ vc with attempts := vc.attempts + 1 }]) := by
  have hfe : findByEmail [u] u.email = some u := findByEmail_singleton u
  have hlk : getActiveVerificationCodeByUser [vc] u.id .emailVerify .email
      = some vc :=
    getActiveByUser_singleton vc u.id .emailVerify .email
      ⟨huid, hpurp, hchan, hcons⟩
  have hinc : incrementVerificationAttempt [vc] vc.id
      = .ok (vc.attempts + 1, vc.maxAttempts,
          [{ vc with attempts := vc.attempts + 1 }]) := by
    simp [incrementVerificationAttempt, hcons, List.find?]
  simp only [confirmEmailVerification, hfe, hlk, hinc]
  rw [if_neg (by simp [hwne]), if_neg (by simp [hu]), if_neg hexp,
    if_pos hwh]
  split
  · rfl
  · rfl

/-- The correct code against a singleton store: the row is consumed and the
user marked verified. -/
theorem confirm_correct_step (u : User) (vc : VerificationCode)
    (hu : u.emailVerified = false) (huid : vc.userId = some u.id)
    (hpurp : vc.purpose = .emailVerify) (hchan : vc.channel = .email)
    (hcons : vc.consumedAt = none) (now : Int)
    (hexp : ¬now > vc.expiresAt) (c : String)
    (hcne : isBlank c = false) (hch : hashToken c = vc.codeHash) :
    confirmEmailVerification [u] [vc] u.email c now
      = (.ok (), [{ u with emailVerified := true }],
         [{ vc with consumedAt := some now }]) := by
  have hfe : findByEmail [u] u.email = some u := findByEmail_singleton u
  have hlk : getActiveVerificationCodeByUser [vc] u.id .emailVerify .email
      = some vc :=
    getActiveByUser_singleton vc u.id .emailVerify .email
      ⟨huid, hpurp, hchan, hcons⟩
  have hcsm : consumeVerificationCode [vc] vc.id now
      = .ok [{ vc with consumedAt := some now }] := by
    simp [consumeVerificationCode, hcons, List.filter]
  have hupd : updateUser [u] { u with emailVerified := true }
      = .ok [{ u with emailVerified := true }] := by
    simp [updateUser, List.filter]
  simp only [confirmEmailVerification, hfe, hlk, hcsm, hupd]
  rw [if_neg (by simp [hcne]), if_neg (by simp [hu]), if_neg hexp,
    if_neg (fun hne => hne hch)]

/-- C2 counterexample: after a successful `ConfirmEmailVerification`, a second
call with the very same code returns the "already verified — idempotent
success" result, not `ErrInvalidOTP`: the claim's "a second verify call …
fails as Invalid" is false for the email-confirmation flow. -/
theorem c2_counterexample_second_confirm_is_ok :
    (confirmEmailVerification [wUser] [wVC] "ada@example.com" "123456"
        100).1 = .ok () ∧
    (confirmEmailVerification
        (confirmEmailVerification [wUser] [wVC] "ada@example.com" "123456"
          100).2.1
        (confirmEmailVerification [wUser] [wVC] "ada@example.com" "123456"
          100).2.2
        "ada@example.com" "123456" 100).1 = .ok () ∧
    (confirmEmailVerification
        (confirmEmailVerification [wUser] [wVC] "ada@example.com" "123456"
          100).2.1
        (confirmEmailVerification [wUser] [wVC] "ada@example.com" "123456"
          100).2.2
        "ada@example.com" "123456" 100).1 ≠ .error .invalidOTP :=
  ⟨rfl, rfl,
   fun h => Except.noConfusion
     ((rfl :
       (confirmEmailVerification
          (confirmEmailVerification [wUser] [wVC] "ada@example.com" "123456"
            100).2.1
          (confirmEmailVerification [wUser] [wVC] "ada@example.com" "123456"
            100).2.2
          "ada@example.com" "123456" 100).1 = Except.ok ()).symm.trans h)⟩

/-- C2 (amended): a verify call with the correct unexpired code succeeds
exactly once and consumes the row.  Re-presenting the same code to
`VerifyPasswordResetCode` then fails as `ErrInvalidOTP`; re-presenting it to
`ConfirmEmailVerification` instead returns an idempotent success that touches
nothing (the user is already verified), so the code is still never accepted
— i.e. never consumed — a second time. -/
theorem c2_verify_code_single_consumption :
    (∀ (u : User) (vc : VerificationCode) (now now₂ : Int) (c : String),
      u.emailVerified = false → vc.userId = some u.id →
      vc.purpose = .emailVerify → vc.channel = .email →
      vc.consumedAt = none → ¬now > vc.expiresAt →
      isBlank c = false → hashToken c = vc.codeHash →
      confirmEmailVerification [u] [vc] u.email c now
        = (.ok (), [{ u with emailVerified := true }],
           [{ vc with consumedAt := some now }]) ∧
      confirmEmailVerification [{ u with emailVerified := true }]
          [{ vc with consumedAt := some now }] u.email c now₂
        = (.ok (), [{ u with emailVerified := true }],
           [{ vc with consumedAt := some now }])) ∧
    (∀ (cfg : VerificationConfig) (u : User) (vc : VerificationCode)
        (tokens : List ActionToken) (now now₂ : Int) (c : String)
        (tokenBytes tokenBytes₂ : List Nat) (tokenID tokenID₂ : String),
      vc.userId = some u.id → vc.purpose = .passwordReset →
      vc.channel = .email → vc.consumedAt = none → ¬now > vc.expiresAt →
      c ≠ "" → hashToken c = vc.codeHash →
      (verifyPasswordResetCode cfg [u] [vc] tokens u.email c now tokenBytes
          tokenID).1 = .ok (generateSecureToken tokenBytes) ∧
      (verifyPasswordResetCode cfg [u] [vc] tokens u.email c now tokenBytes
          tokenID).2.1 = [{ vc with consumedAt := some now }] ∧
      (verifyPasswordResetCode cfg [u]
          (verifyPasswordResetCode cfg [u] [vc] tokens u.email c now
            tokenBytes tokenID).2.1
          (verifyPasswordResetCode cfg [u] [vc] tokens u.email c now
            tokenBytes tokenID).2.2
          u.email c now₂ tokenBytes₂ tokenID₂).1 = .error .invalidOTP) := by
  constructor
  · intro u vc now now₂ c hu huid hpurp hchan hcons hexp hcne hch
    refine ⟨confirm_correct_step u vc hu huid hpurp hchan hcons now hexp c
      hcne hch, ?_⟩
    have hfe : findByEmail [{ u with emailVerified := true }] u.email
        = some { u with emailVerified := true } :=
      findByEmail_singleton { u with emailVerified := true }
    simp only [confirmEmailVerification, hfe]
    rw [if_neg (by simp [hcne])]
    simp
  · intro cfg u vc tokens now now₂ c tokenBytes tokenBytes₂ tokenID tokenID₂
      huid hpurp hchan hcons hexp hcne hch
    have hfe : findByEmail [u] u.email = some u := findByEmail_singleton u
    have hlk : getActiveVerificationCodeByUser [vc] u.id .passwordReset .email
        = some vc :=
      getActiveByUser_singleton vc u.id .passwordReset .email
        ⟨huid, hpurp, hchan, hcons⟩
    have hcsm : consumeVerificationCode [vc] vc.id now
        = .ok [{ vc with consumedAt := some now }] := by
      simp [consumeVerificationCode, hcons, List.filter]
    have hrun : verifyPasswordResetCode cfg [u] [vc] tokens u.email c now
        tokenBytes tokenID
        = (.ok (generateSecureToken tokenBytes),
           [{ vc with consumedAt := some now }],
           createActionToken
             (deleteUserActionTokensByPurpose tokens u.id "password_reset")
             { id := tokenID, userId := u.id, purpose := "password_reset",
               tokenHash := hashToken (generateSecureToken tokenBytes),
               expiresAt := now +
                 (if cfg.ttlMinutes ≤ 0 then 15 else cfg.ttlMinutes) * 60,
               consumedAt := none, createdAt := now }) := by
      simp only [verifyPasswordResetCode, hfe, hlk, hcsm]
      rw [if_neg hcne, if_neg hexp, if_neg (fun hne => hne hch)]
    have hlk₂ : getActiveVerificationCodeByUser
        [{ vc with consumedAt := some now }] u.id .passwordReset .email
        = none :=
      getActiveByUser_singleton_none _ u.id .passwordReset .email
        (fun hact => by
          have := hact.2.2.2
          simp at this)
    refine ⟨by rw [hrun], by rw [hrun], ?_⟩
    rw [hrun]
    simp only [verifyPasswordResetCode, hfe, hlk₂]
    rw [if_neg hcne]

theorem c2_witness :
    confirmEmailVerification [wUser] [wVC] wUser.email "123456" 100
      = (.ok (), [{ wUser with emailVerified := true }],
         [{ wVC with consumedAt := some 100 }]) ∧
    confirmEmailVerification [{ wUser with emailVerified := true }]
        [{ wVC with consumedAt := some 100 }] wUser.email "123456" 200
      = (.ok (), [{ wUser with emailVerified := true }],
         [{ wVC with consumedAt := some 100 }]) ∧
    (verifyPasswordResetCode wCfg [wUser]
        (verifyPasswordResetCode wCfg [wUser]
          [{ wVC with purpose := .passwordReset }] [] wUser.email "123456"
          100 [7, 7] "t9").2.1
        (verifyPasswordResetCode wCfg [wUser]
          [{ wVC with purpose := .passwordReset }] [] wUser.email "123456"
          100 [7, 7] "t9").2.2
        wUser.email "123456" 300 [8, 8] "t10").1 = .error .invalidOTP := by
  have h1 := c2_verify_code_single_consumption.1 wUser wVC 100 200 "123456"
    (by decide) (by decide) (by decide) (by decide) (by decide) (by decide)
    (by decide) (by decide)
  have h2 := c2_verify_code_single_consumption.2 wCfg wUser
    { wVC with purpose := .passwordReset } [] 100 300 "123456" [7, 7] [8, 8]
    "t9" "t10" (by decide) (by decide) (by decide) (by decide) (by decide)
    (by decide) (by decide)
  exact ⟨h1.1, h1.2, h2.2.2⟩

/-- A sequence of `ConfirmEmailVerification` calls at the same instant,
collecting each call's outcome and threading the stores through. -/
def confirmEmailVerificationSeq (users : List User)
    (vcs : List VerificationCode) (email : String) (now : Int) :
    List String → List (Except UserErr Unit) × List User × List VerificationCode
  | [] => ([], users, vcs)
  | c :: cs =>
      ((confirmEmailVerification users vcs email c now).1 ::
        (confirmEmailVerificationSeq
          (confirmEmailVerification users vcs email c now).2.1
          (confirmEmailVerification users vcs email c now).2.2
          email now cs).1,
       (confirmEmailVerificationSeq
          (confirmEmailVerification users vcs email c now).2.1
          (confirmEmailVerification users vcs email c now).2.2
          email now cs).2)

/-- Wrong codes against a row with `attempts = a`: each call increments the
counter by one, reporting `Invalid` until the counter reaches the bound and
`TooManyAttempts` exactly when it does. -/
theorem confirmSeq_wrong_aux (u : User) (vc : VerificationCode)
    (hu : u.emailVerified = false) (huid : vc.userId = some u.id)
    (hpurp : vc.purpose = .emailVerify) (hchan : vc.channel = .email)
    (hcons : vc.consumedAt = none) (now : Int) (hexp : ¬now > vc.expiresAt) :
    ∀ (ws : List String) (a : Int),
      (∀ w ∈ ws, isBlank w = false ∧ hashToken w ≠ vc.codeHash) →
      a + ws.length = vc.maxAttempts →
      ws ≠ [] →
      confirmEmailVerificationSeq [u] [{ vc with attempts := a }] u.email now
        ws
        = (List.replicate (ws.length - 1) (Except.error UserErr.invalidOTP)
            ++ [Except.error UserErr.tooManyAttempts],
           [u], [{ vc with attempts := vc.maxAttempts }]) := by
  intro ws
  induction ws with
  | nil => intro a _ _ hne; exact absurd rfl hne
  | cons w ws' ih =>
      intro a hws hlen _
      have hstep : confirmEmailVerification [u] [{ vc with attempts := a }]
          u.email w now
          = (if a + 1 ≥ vc.maxAttempts then
               Except.error UserErr.tooManyAttempts
             else Except.error UserErr.invalidOTP,
             [u], [{ vc with attempts := a + 1 }]) :=
        confirm_wrong_step u { vc with attempts := a } hu huid hpurp hchan
          hcons now hexp w (hws w (List.mem_cons_self w ws')).1
          (hws w (List.mem_cons_self w ws')).2
      cases ws' with
      | nil =>
          have hge : a + 1 ≥ vc.maxAttempts := by
            simp only [List.length_cons, List.length_nil] at hlen
            omega
          have ha1 : a + 1 = vc.maxAttempts := by
            simp only [List.length_cons, List.length_nil] at hlen
            omega
          simp only [confirmEmailVerificationSeq, hstep]
          rw [if_pos hge, ha1]
          simp
      | cons w2 ws'' =>
          have hlt : ¬(a + 1 ≥ vc.maxAttempts) := by
            simp only [List.length_cons] at hlen
            omega
          have hrec := ih (a + 1)
            (fun x hx => hws x (List.mem_cons_of_mem _ hx))
            (by simp only [List.length_cons] at hlen ⊢; omega)
            (by simp)
          rw [confirmEmailVerificationSeq]
          simp only [hstep]
          rw [if_neg hlt, hrec]
          simp [List.replicate_succ]

/-- C3: with a fresh active unexpired code (`attempts = 0`, bound `N ≥ 1`),
`N` consecutive wrong-code `ConfirmEmailVerification` calls return `Invalid`
on each of the first `N − 1` and `TooManyAttempts` exactly on the `N`-th,
each call bumping the attempt counter by one through the atomic
increment-and-return, leaving the counter at `N`. -/
theorem c3_too_many_attempts_on_nth_call (u : User) (vc : VerificationCode)
    (N : Nat) (ws : List String) (now : Int)
    (hu : u.emailVerified = false) (huid : vc.userId = some u.id)
    (hpurp : vc.purpose = .emailVerify) (hchan : vc.channel = .email)
    (hcons : vc.consumedAt = none) (hatt : vc.attempts = 0)
    (hmax : vc.maxAttempts = (N : Int)) (hN : 1 ≤ N)
    (hexp : ¬now > vc.expiresAt)
    (hws : ∀ w ∈ ws, isBlank w = false ∧ hashToken w ≠ vc.codeHash)
    (hlen : ws.length = N) :
    confirmEmailVerificationSeq [u] [vc] u.email now ws
      = (List.replicate (N - 1) (Except.error UserErr.invalidOTP)
          ++ [Except.error UserErr.tooManyAttempts],
         [u], [{ vc with attempts := (N : Int) }]) := by
  have hvc : ({ vc with attempts := (0 : Int) }) = vc := by rw [← hatt]
  have haux := confirmSeq_wrong_aux u vc hu huid hpurp hchan hcons now hexp
    ws 0 hws (by rw [hlen, hmax]; simp)
    (by intro h; rw [h] at hlen; simp at hlen; omega)
  rw [hvc] at haux
  rw [haux, hlen, hmax]

theorem c3_witness :
    confirmEmailVerificationSeq [wUser] [{ wVC with maxAttempts := 2 }]
      wUser.email 100 ["000000", "999999"]
      = ([Except.error UserErr.invalidOTP,
          Except.error UserErr.tooManyAttempts],
         [wUser], [{ wVC with maxAttempts := 2, attempts := 2 }]) :=
  c3_too_many_attempts_on_nth_call wUser { wVC with maxAttempts := 2 } 2
    ["000000", "999999"] 100 (by decide) (by decide) (by decide) (by decide)
    (by decide) (by decide) (by decide) (by decide) (by decide)
    (by decide) (by decide)
